import Mathlib

/-!
Verification of the mixtral-8x22b-serverless repository.

This file gives a shallow embedding of the three source files
(`src/engine.py`, `scripts/benchmark.py`, `scripts/cost-calculator.py`)
and proves or refutes the frozen claims about them.

Conventions:
* Python real arithmetic is modelled over `ℚ` (exact rationals); the
  decimal literals of the source are exact in this model.
* `None`-able Python arguments are modelled as `Option` values, and the
  Python idiom `x or default` (which also replaces a falsy `0`) is
  modelled by explicit helpers `pyOrQ` / `pyOrNat`.
* Python strings are modelled as `List Char`; slicing `s[k:]` is
  `List.drop k s`.
* The engine wrapper's generators are modelled as functions from the
  engine's snapshot stream (given as a list) to the list of yielded
  values, in yield order.
-/

namespace Mixtral

/-! ## Cost calculator (`scripts/cost-calculator.py`) -/

/-- `CostConfig` from `scripts/cost-calculator.py`: cost configuration
constants for the RunPod H100 deployment. -/
structure CostConfig where
  GPU_COST_PER_HOUR : ℚ
  STORAGE_COST_PER_GB_PER_MONTH : ℚ
  STORAGE_SIZE_GB : ℚ
  REVENUE_INPUT_PER_MILLION : ℚ
  REVENUE_OUTPUT_PER_MILLION : ℚ
  REVENUE_PER_REQUEST : ℚ
  OPENROUTER_FEE_PERCENT : ℚ
  AVG_INPUT_TOKENS : ℚ
  AVG_OUTPUT_TOKENS : ℚ
  AVG_GENERATION_TIME_SECONDS : ℚ
deriving DecidableEq

/-- Derived constant `GPU_COST_PER_SECOND = GPU_COST_PER_HOUR / 3600`. -/
def CostConfig.GPU_COST_PER_SECOND (c : CostConfig) : ℚ :=
  c.GPU_COST_PER_HOUR / 3600

/-- The default constant values of `CostConfig`. -/
def defaultCostConfig : CostConfig where
  GPU_COST_PER_HOUR := 2.40
  STORAGE_COST_PER_GB_PER_MONTH := 0.20
  STORAGE_SIZE_GB := 200
  REVENUE_INPUT_PER_MILLION := 0.50
  REVENUE_OUTPUT_PER_MILLION := 1.30
  REVENUE_PER_REQUEST := 0.001
  OPENROUTER_FEE_PERCENT := 5.5
  AVG_INPUT_TOKENS := 1000
  AVG_OUTPUT_TOKENS := 500
  AVG_GENERATION_TIME_SECONDS := 30

/-- Python `x or d` for an optional numeric argument: `None` and the
falsy value `0` are both replaced by the default `d`. -/
def pyOrQ (x : Option ℚ) (d : ℚ) : ℚ :=
  match x with
  | none => d
  | some v => if v = 0 then d else v

/-- `CostCalculator.calculate_gpu_cost(hours)` = `hours * GPU_COST_PER_HOUR`. -/
def calculate_gpu_cost (cfg : CostConfig) (hours : ℚ) : ℚ :=
  hours * cfg.GPU_COST_PER_HOUR

/-- `CostCalculator.calculate_storage_cost(days)`:
`STORAGE_SIZE_GB * STORAGE_COST_PER_GB_PER_MONTH * (days / 30.0)`. -/
def calculate_storage_cost (cfg : CostConfig) (days : ℚ) : ℚ :=
  cfg.STORAGE_SIZE_GB * cfg.STORAGE_COST_PER_GB_PER_MONTH * (days / 30)

/-- `CostCalculator.calculate_request_cost(num_requests, avg_duration_seconds=None)`:
`duration = avg_duration_seconds or AVG_GENERATION_TIME_SECONDS`;
`total_seconds = num_requests * duration`; result `total_seconds * GPU_COST_PER_SECOND`. -/
def calculate_request_cost (cfg : CostConfig) (num_requests : ℕ)
    (avg_duration_seconds : Option ℚ) : ℚ :=
  let duration := pyOrQ avg_duration_seconds cfg.AVG_GENERATION_TIME_SECONDS
  let total_seconds := (num_requests : ℚ) * duration
  total_seconds * cfg.GPU_COST_PER_SECOND

/-- The `per_request` sub-dictionary returned by `calculate_revenue`. -/
structure PerRequest where
  gross : ℚ
  net : ℚ
  cost : ℚ
  profit : ℚ
deriving DecidableEq

/-- The dictionary returned by `CostCalculator.calculate_revenue`. -/
structure RevenueResult where
  num_requests : ℕ
  gross_revenue : ℚ
  openrouter_fee : ℚ
  net_revenue : ℚ
  gpu_cost : ℚ
  profit : ℚ
  profit_margin_percent : ℚ
  per_request : PerRequest
deriving DecidableEq

/-- `CostCalculator.calculate_revenue(num_requests, input_tokens=None, output_tokens=None)`,
transcribed line by line from `scripts/cost-calculator.py`. -/
def calculate_revenue (cfg : CostConfig) (num_requests : ℕ)
    (input_tokens output_tokens : Option ℚ) : RevenueResult :=
  let input_tokens := pyOrQ input_tokens cfg.AVG_INPUT_TOKENS
  let output_tokens := pyOrQ output_tokens cfg.AVG_OUTPUT_TOKENS
  let input_revenue := (input_tokens / 1000000) * cfg.REVENUE_INPUT_PER_MILLION
  let output_revenue := (output_tokens / 1000000) * cfg.REVENUE_OUTPUT_PER_MILLION
  let request_revenue := cfg.REVENUE_PER_REQUEST
  let gross_per_request := input_revenue + output_revenue + request_revenue
  let total_gross := (num_requests : ℚ) * gross_per_request
  let openrouter_fee := total_gross * (cfg.OPENROUTER_FEE_PERCENT / 100)
  let net_revenue := total_gross - openrouter_fee
  let total_cost := calculate_request_cost cfg num_requests none
  let profit := net_revenue - total_cost
  let profit_margin := if 0 < net_revenue then profit / net_revenue * 100 else 0
  { num_requests := num_requests
    gross_revenue := total_gross
    openrouter_fee := openrouter_fee
    net_revenue := net_revenue
    gpu_cost := total_cost
    profit := profit
    profit_margin_percent := profit_margin
    per_request :=
      { gross := gross_per_request
        net := gross_per_request * (1 - cfg.OPENROUTER_FEE_PERCENT / 100)
        cost := if 0 < num_requests then total_cost / num_requests else 0
        profit := if 0 < num_requests then profit / num_requests else 0 } }

/-! ## Benchmark harness (`scripts/benchmark.py`) -/

/-- One per-request result record returned by `Benchmark.make_request`:
either the success dictionary (with timing and token counts) or the
failure dictionary (with the error text). -/
inductive BenchResult where
  | ok (total_time : ℚ) (prompt_tokens completion_tokens total_tokens : ℕ)
      (text_length : ℕ) (tokens_per_second : ℚ)
  | err (total_time : ℚ) (error : List Char)
deriving DecidableEq

/-- The `success` field of a result record. -/
def BenchResult.success : BenchResult → Bool
  | .ok .. => true
  | .err .. => false

/-- The `total_time` field of a result record. -/
def BenchResult.total_time : BenchResult → ℚ
  | .ok t .. => t
  | .err t _ => t

/-- The `tokens_per_second` field (a failure record carries `0`). -/
def BenchResult.tokens_per_second : BenchResult → ℚ
  | .ok _ _ _ _ _ tps => tps
  | .err .. => 0

/-- The `total_tokens` field (only success records are ever read). -/
def BenchResult.total_tokens : BenchResult → ℕ
  | .ok _ _ _ tt _ _ => tt
  | .err .. => 0

/-- The `completion_tokens` field (only success records are ever read). -/
def BenchResult.completion_tokens : BenchResult → ℕ
  | .ok _ _ ct _ _ _ => ct
  | .err .. => 0

/-- Python `range(0, stop, step)` for `step ≥ 1`: the `⌈stop/step⌉`
multiples of `step` below `stop`. -/
def pyRangeStep (stop step : ℕ) : List ℕ :=
  (List.range ((stop + step - 1) / step)).map (fun j => j * step)

/-- The batch index lists built in `Benchmark.run_concurrent`:
`[list(range(i, min(i + concurrent, num_requests))) for i in
range(0, num_requests, concurrent)]` (Python `range(i, j)` is
`List.range' i (j - i)`). -/
def concurrentBatches (num_requests concurrent : ℕ) : List (List ℕ) :=
  (pyRangeStep num_requests concurrent).map
    (fun i => List.range' i (min (i + concurrent) num_requests - i))

/-- `Benchmark.run_concurrent`, abstracted over the effect of one request:
the request issued at global position `k` (in issue order) returns `f k`.
Within a batch all requests are gathered in task order and the batch
result lists are concatenated in batch order (`results.extend`). -/
def run_concurrent {α : Type} (f : ℕ → α) (num_requests concurrent : ℕ) : List α :=
  ((concurrentBatches num_requests concurrent).map (fun b => b.map f)).flatten

/-- `statistics.mean` (used only on non-empty lists in the source). -/
def meanQ (l : List ℚ) : ℚ := l.sum / l.length

/-- `statistics.median`: average of the middle element(s) of the sorted list
(used only on non-empty lists in the source). -/
def medianQ (l : List ℚ) : ℚ :=
  let s := l.mergeSort (fun a b => decide (a ≤ b))
  if l.length % 2 = 1 then s.getD (l.length / 2) 0
  else (s.getD (l.length / 2 - 1) 0 + s.getD (l.length / 2) 0) / 2

/-- Python `min(list)` on a non-empty list. -/
def listMinQ : List ℚ → ℚ
  | [] => 0
  | x :: xs => xs.foldl min x

/-- Python `max(list)` on a non-empty list. -/
def listMaxQ : List ℚ → ℚ
  | [] => 0
  | x :: xs => xs.foldl max x

/-- The square of `statistics.stdev` (the sample variance `Σ(x−x̄)²/(n−1)`).
The source stores the real square root of this quantity, which is in
general irrational; the development carries its square, which determines
it, to stay inside `ℚ`. -/
def sampleVarianceQ (l : List ℚ) : ℚ :=
  let m := meanQ l
  (l.map (fun x => (x - m) ^ 2)).sum / ((l.length : ℚ) - 1)

/-- The `latency` sub-dictionary of `calculate_statistics` (`stdev_sq`
stands for the square of the `stdev` entry, see `sampleVarianceQ`). -/
structure LatencyStats where
  mean : ℚ
  median : ℚ
  min : ℚ
  max : ℚ
  stdev_sq : ℚ
  p95 : ℚ
  p99 : ℚ
deriving DecidableEq

/-- The `throughput` sub-dictionary of `calculate_statistics`. -/
structure ThroughputStats where
  mean_tps : ℚ
  median_tps : ℚ
  min_tps : ℚ
  max_tps : ℚ
deriving DecidableEq

/-- The `tokens` sub-dictionary of `calculate_statistics`. -/
structure TokenStats where
  total_tokens_mean : ℚ
  completion_tokens_mean : ℚ
deriving DecidableEq

/-- The dictionary returned by `calculate_statistics`; the three
sub-dictionaries are absent (`none`) exactly on the no-success branch. -/
structure BenchStats where
  total_requests : ℕ
  successful : ℕ
  failed : ℕ
  error_rate : ℚ
  latency : Option LatencyStats
  throughput : Option ThroughputStats
  tokens : Option TokenStats
deriving DecidableEq

/-- `Benchmark.calculate_statistics(results)`, transcribed from
`scripts/benchmark.py`.  The percentile indices are
`int(len * 0.95)` / `int(len * 0.99)` (exact rational floor here);
out-of-range indexing cannot occur for them in exact arithmetic. -/
def calculate_statistics (results : List BenchResult) : BenchStats :=
  let successful := results.filter (fun r => r.success)
  let failed := results.filter (fun r => !r.success)
  if successful.isEmpty then
    { total_requests := results.length
      successful := 0
      failed := failed.length
      error_rate := 100.0
      latency := none, throughput := none, tokens := none }
  else
    let latencies := successful.map (·.total_time)
    let tps_values := (successful.map (·.tokens_per_second)).filter (fun v => 0 < v)
    let total_tokens := successful.map (fun r => (r.total_tokens : ℚ))
    let completion_tokens := successful.map (fun r => (r.completion_tokens : ℚ))
    let sortedLat := latencies.mergeSort (fun a b => decide (a ≤ b))
    { total_requests := results.length
      successful := successful.length
      failed := failed.length
      error_rate := if results.length ≠ 0 then (failed.length : ℚ) / results.length * 100 else 0
      latency := some
        { mean := meanQ latencies
          median := medianQ latencies
          min := listMinQ latencies
          max := listMaxQ latencies
          stdev_sq := if 1 < latencies.length then sampleVarianceQ latencies else 0
          p95 := sortedLat.getD ⌊(latencies.length : ℚ) * 0.95⌋.toNat 0
          p99 := sortedLat.getD ⌊(latencies.length : ℚ) * 0.99⌋.toNat 0 }
      throughput := some
        { mean_tps := if tps_values ≠ [] then meanQ tps_values else 0
          median_tps := if tps_values ≠ [] then medianQ tps_values else 0
          min_tps := if tps_values ≠ [] then listMinQ tps_values else 0
          max_tps := if tps_values ≠ [] then listMaxQ tps_values else 0 }
      tokens := some
        { total_tokens_mean := if total_tokens ≠ [] then meanQ total_tokens else 0
          completion_tokens_mean := if completion_tokens ≠ [] then meanQ completion_tokens else 0 } }

/-! ## Inference engine wrapper (`src/engine.py`) -/

/-- Text of a Python string. -/
abbrev Text := List Char

/-- One element of `request_output.outputs`: a candidate's index and its
full accumulated text as of this snapshot. -/
structure GenOutput where
  index : ℕ
  text : Text
deriving DecidableEq

/-- One "request output" snapshot yielded by the engine's stream. -/
structure RequestOutput where
  prompt_token_ids : List ℕ
  outputs : List GenOutput
deriving DecidableEq

/-- One entry of a batch's `choices` list: `{"tokens": [...]}`. -/
structure Choice where
  tokens : List Text
deriving DecidableEq

/-- The `usage` field attached to an emitted batch. -/
structure Usage where
  input : ℕ
  output : ℕ
deriving DecidableEq

/-- One response batch yielded by `_generate_vllm`. -/
structure Batch where
  choices : List Choice
  usage : Option Usage
deriving DecidableEq

/-- Modelled from the spec: `BatchSize` (the Batch Size Controller, §4.3)
from `utils.py`, which is not part of the excerpt: constructed with
`(max_batch_size, min_batch_size, growth_factor)`, initial
`current_batch_size = min_batch_size`, and `update()` sets
`current_batch_size = min(current_batch_size * growth_factor, max_batch_size)`. -/
structure BatchSize where
  max_batch_size : ℕ
  min_batch_size : ℕ
  growth_factor : ℕ
  current_batch_size : ℕ
deriving DecidableEq

/-- `BatchSize(max_batch_size, min_batch_size, growth_factor)`. -/
def BatchSize.make (maxB minB growth : ℕ) : BatchSize :=
  ⟨maxB, minB, growth, minB⟩

/-- `BatchSize.update()`. -/
def BatchSize.update (b : BatchSize) : BatchSize :=
  { b with current_batch_size := min (b.current_batch_size * b.growth_factor) b.max_batch_size }

/-- `k` repeated calls to `BatchSize.update()`. -/
def BatchSize.iter (b : BatchSize) : ℕ → BatchSize
  | 0 => b
  | k + 1 => (b.iter k).update

/-- `vLLMEngine.dynamic_batch_size(current_batch_size, batch_size_growth_factor)`
= `min(current_batch_size * batch_size_growth_factor, self.default_batch_size)`. -/
def dynamic_batch_size (default_batch_size current_batch_size batch_size_growth_factor : ℕ) : ℕ :=
  min (current_batch_size * batch_size_growth_factor) default_batch_size

/-- Python `x or d` for an optional integer argument: `None` and the
falsy value `0` are both replaced by the default `d`. -/
def pyOrNat (x : Option ℕ) (d : ℕ) : ℕ :=
  match x with
  | none => d
  | some v => if v = 0 then d else v

/-- The mutable local state of one `_generate_vllm` call: the
`token_counters` dictionary is split into the fields `total` and
`batchCount`, `choices` is the working batch's `choices` list, and
`emitted` accumulates the yielded batches in yield order. -/
structure GenState where
  n_input_tokens : ℕ
  is_first_output : Bool
  last_output_texts : List Text
  total : ℕ
  batchCount : ℕ
  choices : List Choice
  bs : BatchSize
  emitted : List Batch
deriving DecidableEq

/-- Body of the inner `for output in request_output.outputs` loop of
`_generate_vllm`.  A candidate index out of range would raise in Python
(and be absorbed by `generate`'s error handler before any malformed batch
could be yielded); here `List.set` / `List.getD` make it a no-op. -/
def processOutput (stream : Bool) (n_responses : ℕ) (s : GenState) (o : GenOutput) : GenState :=
  let s := { s with total := s.total + 1 }
  let s :=
    if stream then
      let last := s.last_output_texts.getD o.index []
      let new_output := o.text.drop last.length
      let s := { s with
        choices := s.choices.set o.index ⟨(s.choices.getD o.index ⟨[]⟩).tokens ++ [new_output]⟩
        batchCount := s.batchCount + 1 }
      if s.bs.current_batch_size ≤ s.batchCount then
        { s with
          emitted := s.emitted ++
            [{ choices := s.choices, usage := some ⟨s.n_input_tokens, s.total⟩ }]
          choices := List.replicate n_responses ⟨[]⟩
          batchCount := 0
          bs := s.bs.update }
      else s
    else s
  { s with last_output_texts := s.last_output_texts.set o.index o.text }

/-- Body of the outer `async for request_output in results_generator`
loop of `_generate_vllm`: capture the prompt token count on the first
snapshot, then process each candidate output. -/
def processSnapshot (stream : Bool) (n_responses : ℕ) (s : GenState) (r : RequestOutput) :
    GenState :=
  let s :=
    if s.is_first_output then
      { s with n_input_tokens := r.prompt_token_ids.length, is_first_output := false }
    else s
  r.outputs.foldl (processOutput stream n_responses) s

/-- The wrapper's configured defaults (`self.default_batch_size`,
`self.batch_size_growth_factor`, `self.min_batch_size`). -/
structure EngineDefaults where
  default_batch_size : ℕ
  batch_size_growth_factor : ℕ
  min_batch_size : ℕ
deriving DecidableEq

/-- `vLLMEngine._generate_vllm`, with the engine's snapshot stream
supplied as the list `snapshots` (prompt resolution and the engine call
itself are external); returns the list of yielded batches in yield
order.  `n_responses = validated_sampling_params.n`. -/
def generate_vllm (E : EngineDefaults) (n_responses : ℕ) (batch_size : Option ℕ)
    (stream : Bool) (batch_size_growth_factor min_batch_size : Option ℕ)
    (snapshots : List RequestOutput) : List Batch :=
  let max_batch_size := pyOrNat batch_size E.default_batch_size
  let growth := pyOrNat batch_size_growth_factor E.batch_size_growth_factor
  let minB := pyOrNat min_batch_size E.min_batch_size
  let s0 : GenState :=
    { n_input_tokens := 0
      is_first_output := true
      last_output_texts := List.replicate n_responses []
      total := 0
      batchCount := 0
      choices := List.replicate n_responses ⟨[]⟩
      bs := BatchSize.make max_batch_size minB growth
      emitted := [] }
  let s := snapshots.foldl (processSnapshot stream n_responses) s0
  let s :=
    if stream then s
    else
      { s with
        choices := s.last_output_texts.enum.foldl (fun cs p => cs.set p.1 ⟨[p.2]⟩) s.choices
        batchCount := s.batchCount + 1 }
  if 0 < s.batchCount then
    s.emitted ++ [{ choices := s.choices, usage := some ⟨s.n_input_tokens, s.total⟩ }]
  else s.emitted

/-- One element yielded by `generate`: either a batch forwarded from
`_generate_vllm`, or the terminal
`{"error": create_error_response(str(e)).model_dump()}` dictionary
(`create_error_response`, modelled from the spec, builds a standardized
error object carrying the human-readable message). -/
inductive GenerateItem where
  | batch (b : Batch)
  | error (message : Text)
deriving DecidableEq

/-- Whether a yielded item is the error dictionary. -/
def GenerateItem.isError : GenerateItem → Bool
  | .batch _ => false
  | .error _ => true

/-- The observable outcome of one run of the internal generation
procedure `_generate_vllm` viewed as an async generator: the batches it
yielded before either finishing normally (`exception = none`) or raising
an exception with message `e` at any point — including tokenizer
resolution and engine errors (`exception = some e`). -/
structure InnerRun where
  yielded : List Batch
  exception : Option Text
deriving DecidableEq

/-- `vLLMEngine.generate`: forwards every batch the internal procedure
yields; an exception raised at any point is caught by the surrounding
`try`/`except` and converted into exactly one terminal error item. -/
def generate (run : InnerRun) : List GenerateItem :=
  match run.exception with
  | none => run.yielded.map GenerateItem.batch
  | some e => run.yielded.map GenerateItem.batch ++ [GenerateItem.error e]

/-- The fragments emitted for candidate `i` across the batches `B`,
in emission order. -/
def candidateFragments (B : List Batch) (i : ℕ) : List Text :=
  (B.map (fun b => (b.choices.getD i ⟨[]⟩).tokens)).flatten

/-- The fragments for candidate `i` pending in the working batch. -/
def pendTokens (s : GenState) (i : ℕ) : List Text :=
  (s.choices.getD i ⟨[]⟩).tokens

/-- Boolean check that a chronological sequence of candidate outputs is
append-monotonic: each output's text extends the last-seen text for its
candidate index (the claim's "snapshot text grows by appending"). -/
def appendMonoB : List Text → List GenOutput → Bool
  | _, [] => true
  | seen, o :: rest =>
    (seen.getD o.index []).isPrefixOf o.text && appendMonoB (seen.set o.index o.text) rest

/-- The final accumulated text of candidate `i`: the text of the last
output for index `i` across the flattened snapshot stream (empty if the
candidate never produced output). -/
def finalCandidateText (snaps : List RequestOutput) (i : ℕ) : Text :=
  ((((snaps.map (fun r => r.outputs)).flatten).filter (fun o => o.index == i)).map
    (fun o => o.text)).getLastD []

/-- Bookkeeping invariant of one streaming `_generate_vllm` call: the
per-candidate tables have width `n`; for every candidate the fragments
already emitted followed by the fragments pending in the working batch
concatenate exactly to the last-seen accumulated text; and a zero
within-batch counter means the working batch holds no fragments. -/
def StreamInv (n : ℕ) (s : GenState) : Prop :=
  s.last_output_texts.length = n ∧
  s.choices.length = n ∧
  (∀ i < n, (candidateFragments s.emitted i ++ pendTokens s i).flatten =
    s.last_output_texts.getD i []) ∧
  (s.batchCount = 0 → ∀ i, pendTokens s i = [])

end Mixtral

/-! # Helper lemmas -/

namespace Mixtral

/-- Flattening the first `K` chunks of consecutive indices (chunk `j`
covering `[j*c, min (j*c + c) n)`) yields `range (min n (K*c))`. -/
lemma flatten_rangeChunks (n c K : ℕ) :
    ((List.range K).map
      (fun j => List.range' (j * c) (min (j * c + c) n - j * c))).flatten =
    List.range (min n (K * c)) := by
  induction K with
  | zero => simp
  | succ K ih =>
    rw [List.range_succ, List.map_append, List.flatten_append, ih]
    simp only [List.map_cons, List.map_nil, List.flatten_cons, List.flatten_nil,
      List.append_nil, Nat.succ_mul]
    rcases le_or_lt n (K * c) with h | h
    · have h0 : min (K * c + c) n - K * c = 0 := by omega
      have h1 : min n (K * c) = n := by omega
      have h2 : min n (K * c + c) = n := by omega
      rw [h0, h1, h2]
      simp
    · have h1 : min n (K * c) = K * c := by omega
      rw [h1, List.range_eq_range', List.range_eq_range']
      have h2 : List.range' 0 (K * c) ++ List.range' (K * c) (min (K * c + c) n - K * c) =
          List.range' 0 ((min (K * c + c) n - K * c) + K * c) := by
        simpa using List.range'_append 0 (K * c) (min (K * c + c) n - K * c) 1
      rw [h2]
      congr 1
      omega

/-- For `c ≥ 1`, the ceiling count `⌈n/c⌉` of batches covers all `n`
indices: `n ≤ ((n + c - 1) / c) * c`. -/
lemma le_ceilDiv_mul (n c : ℕ) (hc : 1 ≤ c) : n ≤ ((n + c - 1) / c) * c := by
  have hdm := Nat.div_add_mod (n + c - 1) c
  have hmod : (n + c - 1) % c < c := Nat.mod_lt _ (by omega)
  have hcomm : c * ((n + c - 1) / c) = ((n + c - 1) / c) * c := Nat.mul_comm _ _
  rw [hcomm] at hdm
  generalize ((n + c - 1) / c) * c = a at *
  omega

/-- `BatchSize.update` and `BatchSize.iter` never change the configured
maximum, minimum and growth factor. -/
lemma BatchSize.iter_fields (b : BatchSize) (k : ℕ) :
    (b.iter k).max_batch_size = b.max_batch_size ∧
    (b.iter k).min_batch_size = b.min_batch_size ∧
    (b.iter k).growth_factor = b.growth_factor := by
  induction k with
  | zero => exact ⟨rfl, rfl, rfl⟩
  | succ k ih => simpa [BatchSize.iter, BatchSize.update] using ih

/-- Closed form of the batch-size sequence: after `k` updates the current
batch size is `min (current₀ * factor^k) max`. -/
lemma BatchSize.iter_current (b : BatchSize) (hcur : b.current_batch_size ≤ b.max_batch_size)
    (hf : 1 ≤ b.growth_factor) (k : ℕ) :
    (b.iter k).current_batch_size =
      min (b.current_batch_size * b.growth_factor ^ k) b.max_batch_size := by
  induction k with
  | zero => simp [BatchSize.iter, Nat.min_eq_left hcur]
  | succ k ih =>
    obtain ⟨hmax, -, hgrow⟩ := BatchSize.iter_fields b k
    show ((b.iter k).update).current_batch_size = _
    rw [BatchSize.update]
    simp only [hmax, hgrow, ih]
    rcases le_or_lt (b.current_batch_size * b.growth_factor ^ k) b.max_batch_size with h | h
    · rw [Nat.min_eq_left h, pow_succ, ← Nat.mul_assoc]
    · have hstep : b.max_batch_size ≤ b.current_batch_size * b.growth_factor ^ (k + 1) := by
        calc b.max_batch_size ≤ b.current_batch_size * b.growth_factor ^ k := le_of_lt h
          _ ≤ b.current_batch_size * b.growth_factor ^ (k + 1) :=
            Nat.mul_le_mul_left _ (Nat.pow_le_pow_right (by omega) (by omega))
      rw [Nat.min_eq_right (le_of_lt h), Nat.min_eq_right hstep]
      have : b.max_batch_size ≤ b.max_batch_size * b.growth_factor :=
        Nat.le_mul_of_pos_right _ (by omega)
      omega

/-- `getD` after `set` at the written index. -/
lemma getD_set_self {α : Type} (l : List α) (j : ℕ) (x d : α) (h : j < l.length) :
    (l.set j x).getD j d = x := by
  rw [List.getD_eq_getElem?_getD, List.getElem?_set_self (by simpa using h)]
  rfl

/-- `getD` after `set` at a different index. -/
lemma getD_set_ne {α : Type} (l : List α) (i j : ℕ) (x d : α) (h : j ≠ i) :
    (l.set j x).getD i d = l.getD i d := by
  rw [List.getD_eq_getElem?_getD, List.getD_eq_getElem?_getD, List.getElem?_set_ne h]

/-- `getD` on `replicate` inside the range. -/
lemma getD_replicate_of_lt {α : Type} (n i : ℕ) (x d : α) (h : i < n) :
    (List.replicate n x).getD i d = x := by
  rw [List.getD_eq_getElem?_getD, List.getElem?_replicate]
  simp [h]

/-- A property preserved by each step of a fold holds of the fold. -/
lemma foldl_invariant {α β : Type} (P : α → Prop) (f : α → β → α)
    (step : ∀ a b, P a → P (f a b)) :
    ∀ (l : List β) (a : α), P a → P (l.foldl f a) := by
  intro l
  induction l with
  | nil => intro a ha; exact ha
  | cons b l ih =>
    intro a ha
    exact ih _ (step a b ha)

/-- One output step keeps the working batch at width `n` (its initial
width) and every emitted batch at width `n`; after a flush the working
batch is exactly `n` fresh empty entries. -/
lemma processOutput_width (stream : Bool) (n : ℕ) (s : GenState) (o : GenOutput)
    (h : s.choices.length = n ∧ ∀ b ∈ s.emitted, b.choices.length = n) :
    ((processOutput stream n s o).choices.length = n ∧
      ∀ b ∈ (processOutput stream n s o).emitted, b.choices.length = n) := by
  obtain ⟨h1, h2⟩ := h
  unfold processOutput
  cases stream with
  | false => exact ⟨h1, h2⟩
  | true =>
    simp only [Bool.if_true_left, if_true]
    split
    · refine ⟨by simp, ?_⟩
      intro b hb
      rcases List.mem_append.mp hb with hb | hb
      · exact h2 b hb
      · simp only [List.mem_singleton] at hb
        subst hb
        simpa using h1
    · exact ⟨by simpa using h1, h2⟩

/-- One snapshot step keeps all batch widths at `n`. -/
lemma processSnapshot_width (stream : Bool) (n : ℕ) (s : GenState) (r : RequestOutput)
    (h : s.choices.length = n ∧ ∀ b ∈ s.emitted, b.choices.length = n) :
    ((processSnapshot stream n s r).choices.length = n ∧
      ∀ b ∈ (processSnapshot stream n s r).emitted, b.choices.length = n) := by
  unfold processSnapshot
  refine foldl_invariant _ _ (fun a b ha => processOutput_width stream n a b ha) _ _ ?_
  split <;> exact h

/-- The non-streaming final rewrite of the working batch preserves its
length. -/
lemma enumFoldSet_length (l : List Text) :
    ∀ cs : List Choice, (l.enum.foldl (fun cs p => cs.set p.1 ⟨[p.2]⟩) cs).length = cs.length := by
  intro cs
  have := foldl_invariant (fun cs' => List.length cs' = cs.length)
    (fun cs' (p : ℕ × Text) => cs'.set p.1 ⟨[p.2]⟩) (fun a b ha => by simpa using ha)
    l.enum cs rfl
  simpa using this

/-- A freshly reset working batch holds no fragments for any index. -/
lemma getD_replicate_tokens (n i : ℕ) :
    ((List.replicate n (⟨[]⟩ : Choice)).getD i ⟨[]⟩).tokens = [] := by
  rcases lt_or_ge i n with h | h
  · rw [getD_replicate_of_lt _ _ _ _ h]
  · rw [List.getD_eq_default _ _ (by simpa using h)]

/-- Appending one emitted batch appends its fragments for each candidate. -/
lemma candidateFragments_append (e : List Batch) (b : Batch) (i : ℕ) :
    candidateFragments (e ++ [b]) i =
      candidateFragments e i ++ (b.choices.getD i ⟨[]⟩).tokens := by
  simp [candidateFragments]

/-- `appendMonoB` over a concatenation splits at the intermediate
seen-texts table. -/
lemma appendMonoB_append (xs ys : List GenOutput) : ∀ seen : List Text,
    appendMonoB seen (xs ++ ys) =
      (appendMonoB seen xs &&
        appendMonoB (xs.foldl (fun l o => l.set o.index o.text) seen) ys) := by
  induction xs with
  | nil => intro seen; simp [appendMonoB]
  | cons o xs ih =>
    intro seen
    simp only [List.cons_append, appendMonoB, List.foldl_cons]
    rw [List.append_eq, ih, Bool.and_assoc]

/-- Folding the last-seen-text updates over a chronological output list
leaves, at index `i`, the text of the last output with index `i`. -/
lemma setFold_getD (i : ℕ) :
    ∀ (outs : List GenOutput) (l : List Text), i < l.length →
      (outs.foldl (fun l o => l.set o.index o.text) l).getD i [] =
        ((outs.filter (fun o => o.index == i)).map (fun o => o.text)).getLastD
          (l.getD i []) := by
  intro outs
  induction outs with
  | nil => intro l h; rfl
  | cons o rest ih =>
    intro l h
    simp only [List.foldl_cons, List.filter_cons]
    by_cases hoi : o.index = i
    · rw [if_pos (by simpa using hoi), List.map_cons, List.getLastD_cons,
        ih (l.set o.index o.text) (by simpa using h)]
      congr 1
      rw [hoi]
      exact getD_set_self l i o.text [] h
    · rw [if_neg (by simpa using hoi), ih (l.set o.index o.text) (by simpa using h)]
      congr 1
      exact getD_set_ne l i o.index o.text [] hoi

/-- One streaming output step preserves the bookkeeping invariant and
updates the last-seen table at the output's index. -/
lemma processOutput_streamInv (n : ℕ) (s : GenState) (o : GenOutput)
    (hidx : o.index < n)
    (hpre : (s.last_output_texts.getD o.index []).isPrefixOf o.text = true)
    (hinv : StreamInv n s) :
    StreamInv n (processOutput true n s o) ∧
    (processOutput true n s o).last_output_texts =
      s.last_output_texts.set o.index o.text := by
  obtain ⟨hl, hc, hacc, hemp⟩ := hinv
  simp only [pendTokens] at hacc
  have hpre2 : s.last_output_texts.getD o.index [] <+: o.text :=
    List.isPrefixOf_iff_prefix.mp hpre
  obtain ⟨tail, htail⟩ := hpre2
  have hdrop : o.text.drop (s.last_output_texts.getD o.index []).length = tail := by
    rw [← htail]
    exact List.drop_left _ _
  have hof : o.index < s.choices.length := by omega
  have holt : o.index < s.last_output_texts.length := by omega
  have hconcat : ∀ i, i < n →
      (candidateFragments s.emitted i ++
        ((s.choices.set o.index
          ⟨(s.choices.getD o.index ⟨[]⟩).tokens ++
            [o.text.drop (s.last_output_texts.getD o.index []).length]⟩).getD i
              ⟨[]⟩).tokens).flatten =
      (s.last_output_texts.set o.index o.text).getD i [] := by
    intro i hi
    by_cases hio : i = o.index
    · subst hio
      rw [getD_set_self _ _ _ _ hof, getD_set_self _ _ _ _ holt,
        ← List.append_assoc, List.flatten_append]
      rw [hacc o.index hi]
      simp only [List.flatten_cons, List.flatten_nil, List.append_nil]
      rw [hdrop]
      exact htail
    · rw [getD_set_ne _ _ _ _ _ (fun h => hio h.symm),
        getD_set_ne _ _ _ _ _ (fun h => hio h.symm)]
      exact hacc i hi
  have hflushconcat : ∀ (u : Option Usage) (i : ℕ), i < n →
      (candidateFragments (s.emitted ++
          [{ choices := s.choices.set o.index
              ⟨(s.choices.getD o.index ⟨[]⟩).tokens ++
                [o.text.drop (s.last_output_texts.getD o.index []).length]⟩
             usage := u }]) i ++
        ((List.replicate n (⟨[]⟩ : Choice)).getD i ⟨[]⟩).tokens).flatten =
      (s.last_output_texts.set o.index o.text).getD i [] := by
    intro u i hi
    rw [candidateFragments_append, getD_replicate_tokens, List.append_nil]
    exact hconcat i hi
  unfold processOutput
  simp only [if_true]
  split
  · refine ⟨⟨by simpa using hl, by simp, ?_, ?_⟩, rfl⟩
    · intro i hi
      exact hflushconcat _ i hi
    · intro _ i
      exact getD_replicate_tokens n i
  · refine ⟨⟨by simpa using hl, by simpa using hc, ?_, ?_⟩, rfl⟩
    · intro i hi
      exact hconcat i hi
    · intro h
      exact absurd h (Nat.succ_ne_zero _)

/-- The inner output loop preserves the invariant and leaves the
last-seen table equal to the fold of the per-output updates. -/
lemma foldl_processOutput_stream (n : ℕ) :
    ∀ (outs : List GenOutput) (s : GenState),
      StreamInv n s →
      appendMonoB s.last_output_texts outs = true →
      outs.all (fun o => decide (o.index < n)) = true →
      StreamInv n (outs.foldl (processOutput true n) s) ∧
      (outs.foldl (processOutput true n) s).last_output_texts =
        outs.foldl (fun l o => l.set o.index o.text) s.last_output_texts := by
  intro outs
  induction outs with
  | nil =>
    intro s h _ _
    exact ⟨h, rfl⟩
  | cons o rest ih =>
    intro s hinv hmono hall
    simp only [appendMonoB, Bool.and_eq_true] at hmono
    obtain ⟨hpre, hmono'⟩ := hmono
    simp only [List.all_cons, Bool.and_eq_true] at hall
    obtain ⟨hidx, hall'⟩ := hall
    have hidx' : o.index < n := by simpa using hidx
    obtain ⟨hinv', hlast'⟩ := processOutput_streamInv n s o hidx' hpre hinv
    simp only [List.foldl_cons]
    obtain ⟨h1, h2⟩ := ih (processOutput true n s o) hinv'
      (by rw [hlast']; exact hmono') hall'
    refine ⟨h1, ?_⟩
    rw [h2, hlast']

/-- The first-snapshot bookkeeping (input token count) does not touch any
field the invariant mentions. -/
lemma streamInv_firstStep (n : ℕ) (s : GenState) (r : RequestOutput) (h : StreamInv n s) :
    StreamInv n (if s.is_first_output then
      { s with n_input_tokens := r.prompt_token_ids.length, is_first_output := false }
    else s) ∧
    (if s.is_first_output then
      { s with n_input_tokens := r.prompt_token_ids.length, is_first_output := false }
    else s).last_output_texts = s.last_output_texts := by
  split
  · exact ⟨h, rfl⟩
  · exact ⟨h, rfl⟩

/-- The outer snapshot loop preserves the invariant and leaves the
last-seen table equal to the fold of all per-output updates, in
chronological order. -/
lemma foldl_processSnapshot_stream (n : ℕ) :
    ∀ (snaps : List RequestOutput) (s : GenState),
      StreamInv n s →
      appendMonoB s.last_output_texts ((snaps.map (fun r => r.outputs)).flatten) = true →
      ((snaps.map (fun r => r.outputs)).flatten).all (fun o => decide (o.index < n)) = true →
      StreamInv n (snaps.foldl (processSnapshot true n) s) ∧
      (snaps.foldl (processSnapshot true n) s).last_output_texts =
        ((snaps.map (fun r => r.outputs)).flatten).foldl
          (fun l o => l.set o.index o.text) s.last_output_texts := by
  intro snaps
  induction snaps with
  | nil =>
    intro s h _ _
    exact ⟨h, rfl⟩
  | cons r rest ih =>
    intro s hinv hmono hall
    simp only [List.map_cons, List.flatten_cons] at hmono hall ⊢
    rw [appendMonoB_append, Bool.and_eq_true] at hmono
    obtain ⟨hm1, hm2⟩ := hmono
    rw [List.all_append, Bool.and_eq_true] at hall
    obtain ⟨ha1, ha2⟩ := hall
    simp only [List.foldl_cons]
    obtain ⟨hpre_inv, hpre_last⟩ := streamInv_firstStep n s r hinv
    have hstep : processSnapshot true n s r =
        r.outputs.foldl (processOutput true n)
          (if s.is_first_output then
            { s with n_input_tokens := r.prompt_token_ids.length, is_first_output := false }
          else s) := rfl
    rw [hstep]
    obtain ⟨hinner_inv, hinner_last⟩ :=
      foldl_processOutput_stream n r.outputs _ hpre_inv
        (by rw [hpre_last]; exact hm1) ha1
    obtain ⟨h1, h2⟩ := ih _ hinner_inv
      (by rw [hinner_last, hpre_last]; exact hm2) ha2
    refine ⟨h1, ?_⟩
    rw [h2, hinner_last, hpre_last, List.foldl_append]

end Mixtral

/-! # Claim theorems -/

namespace Mixtral

/-! ### Claims about the cost calculator -/

/-- C5 counterexample: `calculate_revenue(0)` does NOT have an all-zero
`per_request` breakdown — the `gross` field is the default per-request
gross `0.00215`, which is nonzero (the formula uses the default token
assumptions independently of `num_requests`). -/
theorem C5_counterexample :
    (calculate_revenue defaultCostConfig 0 none none).per_request.gross = 0.00215 ∧
    (0.00215 : ℚ) ≠ 0 := by
  constructor
  · norm_num [calculate_revenue, calculate_request_cost, pyOrQ, defaultCostConfig,
      CostConfig.GPU_COST_PER_SECOND]
  · norm_num

/-- C5 (amended): `calculate_revenue(0)` returns normally; the guarded
`per_request` fields `cost` and `profit` are zero, the aggregate fields are
all zero, while `per_request.gross` and `per_request.net` equal the
default-assumption per-request values `0.00215` and `0.00203175`. -/
theorem C5_zero_requests_guarded :
    (calculate_revenue defaultCostConfig 0 none none).per_request.cost = 0 ∧
    (calculate_revenue defaultCostConfig 0 none none).per_request.profit = 0 ∧
    (calculate_revenue defaultCostConfig 0 none none).per_request.gross = 0.00215 ∧
    (calculate_revenue defaultCostConfig 0 none none).per_request.net = 0.00203175 ∧
    (calculate_revenue defaultCostConfig 0 none none).gross_revenue = 0 ∧
    (calculate_revenue defaultCostConfig 0 none none).openrouter_fee = 0 ∧
    (calculate_revenue defaultCostConfig 0 none none).net_revenue = 0 ∧
    (calculate_revenue defaultCostConfig 0 none none).gpu_cost = 0 ∧
    (calculate_revenue defaultCostConfig 0 none none).profit = 0 ∧
    (calculate_revenue defaultCostConfig 0 none none).profit_margin_percent = 0 := by
  refine ⟨?_, ?_, ?_, ?_, ?_, ?_, ?_, ?_, ?_, ?_⟩ <;>
    norm_num [calculate_revenue, calculate_request_cost, pyOrQ, defaultCostConfig,
      CostConfig.GPU_COST_PER_SECOND]

/-- C6: with the default constants, `calculate_gpu_cost(10) = 24.00`,
`calculate_storage_cost(30) = 40.00`, and `calculate_revenue(1000)` with the
default token assumptions has gross revenue `2.15 = 1000 * (0.0005 + 0.00065
+ 0.001)`, OpenRouter fee `0.11825 = 2.15 * 0.055`, and net revenue
`2.03175`. -/
theorem C6_cost_calculator_round_numbers :
    calculate_gpu_cost defaultCostConfig 10 = 24.00 ∧
    calculate_storage_cost defaultCostConfig 30 = 40.00 ∧
    (calculate_revenue defaultCostConfig 1000 none none).gross_revenue = 2.15 ∧
    (calculate_revenue defaultCostConfig 1000 none none).openrouter_fee = 0.11825 ∧
    (calculate_revenue defaultCostConfig 1000 none none).net_revenue = 2.03175 ∧
    (2.15 : ℚ) = 1000 * (0.0005 + 0.00065 + 0.001) ∧
    (0.11825 : ℚ) = 2.15 * 0.055 := by
  refine ⟨?_, ?_, ?_, ?_, ?_, ?_, ?_⟩ <;>
    norm_num [calculate_gpu_cost, calculate_storage_cost, calculate_revenue,
      calculate_request_cost, pyOrQ, defaultCostConfig, CostConfig.GPU_COST_PER_SECOND]

/-- C10: passing an explicit `0` for `input_tokens`, `output_tokens` or
`avg_duration_seconds` is treated exactly like leaving the argument unset
(Python `or` replaces falsy values): the results coincide with the
default-argument calls, which use `AVG_INPUT_TOKENS = 1000`,
`AVG_OUTPUT_TOKENS = 500`, `AVG_GENERATION_TIME_SECONDS = 30`. -/
theorem C10_falsy_arguments_use_defaults (n : ℕ) :
    calculate_revenue defaultCostConfig n (some 0) (some 0) =
      calculate_revenue defaultCostConfig n none none ∧
    calculate_request_cost defaultCostConfig n (some 0) =
      calculate_request_cost defaultCostConfig n none ∧
    pyOrQ (some 0) defaultCostConfig.AVG_INPUT_TOKENS = 1000 ∧
    pyOrQ (some 0) defaultCostConfig.AVG_OUTPUT_TOKENS = 500 ∧
    pyOrQ (some 0) defaultCostConfig.AVG_GENERATION_TIME_SECONDS = 30 := by
  refine ⟨?_, ?_, ?_, ?_, ?_⟩ <;>
    simp [calculate_revenue, calculate_request_cost, pyOrQ, defaultCostConfig]

/-! ### Claims about the benchmark harness -/

/-- C9: `calculate_statistics` on an empty results list takes the
no-success branch and returns the minimal summary: `total_requests = 0`,
`successful = 0`, `failed = 0`, `error_rate = 100.0`, and no latency,
throughput or token sub-dictionaries. -/
theorem C9_statistics_empty_results :
    calculate_statistics [] =
      { total_requests := 0, successful := 0, failed := 0, error_rate := 100.0,
        latency := none, throughput := none, tokens := none } := rfl

/-- C7: for `concurrent ≥ 1`, `run_concurrent` partitions the request
indices into consecutive batches — results are the concatenation of the
per-batch results in batch order (equal to mapping the requests over
`range num_requests`), every batch has size at most `concurrent`, every
batch but the last has size exactly `concurrent`, and 10 requests at
concurrency 3 give exactly the 4 batches `[0,1,2],[3,4,5],[6,7,8],[9]` of
sizes `3,3,3,1`. -/
theorem C7_run_concurrent_batching {α : Type} (f : ℕ → α) (num_requests concurrent : ℕ)
    (hc : 1 ≤ concurrent) :
    run_concurrent f num_requests concurrent = (List.range num_requests).map f ∧
    (∀ b ∈ concurrentBatches num_requests concurrent, b.length ≤ concurrent) ∧
    (∀ j, j + 1 < (concurrentBatches num_requests concurrent).length →
      ((concurrentBatches num_requests concurrent).getD j []).length = concurrent) ∧
    concurrentBatches 10 3 = [[0, 1, 2], [3, 4, 5], [6, 7, 8], [9]] ∧
    (concurrentBatches 10 3).map List.length = [3, 3, 3, 1] := by
  have hbatches : concurrentBatches num_requests concurrent =
      (List.range ((num_requests + concurrent - 1) / concurrent)).map
        (fun j => List.range' (j * concurrent)
          (min (j * concurrent + concurrent) num_requests - j * concurrent)) := by
    simp [concurrentBatches, pyRangeStep, List.map_map, Function.comp]
  have hflatten : (concurrentBatches num_requests concurrent).flatten =
      List.range num_requests := by
    rw [hbatches, flatten_rangeChunks]
    congr 1
    have := le_ceilDiv_mul num_requests concurrent hc
    omega
  refine ⟨?_, ?_, ?_, ?_, ?_⟩
  · rw [run_concurrent, ← List.map_flatten, hflatten]
  · intro b hb
    rw [hbatches] at hb
    obtain ⟨j, _, rfl⟩ := List.mem_map.mp hb
    rw [List.length_range']
    omega
  · intro j hj
    set K := (num_requests + concurrent - 1) / concurrent with hK
    have hlen : (concurrentBatches num_requests concurrent).length = K := by
      rw [hbatches]; simp
    have hjK : j < K := by omega
    have hjlt : j < ((List.range K).map
        (fun j => List.range' (j * concurrent)
          (min (j * concurrent + concurrent) num_requests - j * concurrent))).length := by
      simpa using hjK
    rw [hbatches, List.getD_eq_getElem _ _ hjlt, List.getElem_map, List.getElem_range,
      List.length_range']
    have hdm := Nat.div_add_mod (num_requests + concurrent - 1) concurrent
    have hmod : (num_requests + concurrent - 1) % concurrent < concurrent :=
      Nat.mod_lt _ (by omega)
    have hmul : (j + 1) * concurrent ≤ (K - 1) * concurrent :=
      Nat.mul_le_mul_right _ (by omega)
    have e1 : (K - 1) * concurrent = K * concurrent - concurrent := by
      rw [Nat.sub_mul, one_mul]
    have e2 : (j + 1) * concurrent = j * concurrent + concurrent := by
      rw [Nat.add_mul, one_mul]
    have hcomm : concurrent * K = K * concurrent := Nat.mul_comm _ _
    rw [← hK, hcomm] at hdm
    rw [e1, e2] at hmul
    generalize j * concurrent = a at *
    generalize K * concurrent = b at *
    omega
  · decide
  · decide

/-- Witness for C7 at `f = id`, `num_requests = 10`, `concurrent = 3`. -/
theorem C7_run_concurrent_batching_witness :
    run_concurrent (fun i => i) 10 3 = (List.range 10).map (fun i => i) :=
  (C7_run_concurrent_batching (fun i => i) 10 3 (by decide)).1

/-! ### Claims about the engine wrapper -/

/-- C3: whatever prefix of batches the internal generation procedure
yielded before finishing or raising, `generate` forwards them; an
exception raised at any point (tokenizer resolution or engine errors
included) is caught and converted into exactly one terminal error item
appended after the already-emitted batches, and the sequence ends there —
`generate` itself is total and never propagates the exception. -/
theorem C3_generate_error_containment (run : InnerRun) :
    (∀ e, run.exception = some e →
      generate run = run.yielded.map GenerateItem.batch ++ [GenerateItem.error e] ∧
      ((generate run).filter GenerateItem.isError).length = 1 ∧
      (generate run).getLast? = some (GenerateItem.error e)) ∧
    (run.exception = none →
      generate run = run.yielded.map GenerateItem.batch ∧
      ((generate run).filter GenerateItem.isError).length = 0) := by
  constructor
  · intro e he
    refine ⟨by simp [generate, he], ?_, ?_⟩ <;>
      simp [generate, he, GenerateItem.isError, List.filter_map, Function.comp]
  · intro he
    constructor <;> simp [generate, he, GenerateItem.isError, List.filter_map, Function.comp]

/-- Witness for C3: one yielded batch followed by an exception. -/
theorem C3_generate_error_containment_witness :
    generate ⟨[{ choices := [], usage := none }], some ['b', 'o', 'o', 'm']⟩ =
      [GenerateItem.batch { choices := [], usage := none },
       GenerateItem.error ['b', 'o', 'o', 'm']] :=
  ((C3_generate_error_containment
      ⟨[{ choices := [], usage := none }], some ['b', 'o', 'o', 'm']⟩).1
    ['b', 'o', 'o', 'm'] rfl).1

/-- C4 counterexample: the claim as stated fails at `min = 0`, `max = 1`,
`factor = 2` (allowed by `min ≤ max`, `factor ≥ 1 `): the sequence is
constant `0` and never reaches `max`. -/
theorem C4_counterexample :
    ¬ ∃ k, ((BatchSize.make 1 0 2).iter k).current_batch_size = 1 := by
  rintro ⟨k, hk⟩
  have h := BatchSize.iter_current (BatchSize.make 1 0 2) (by decide) (by decide) k
  rw [hk] at h
  simp [BatchSize.make] at h

/-- C4 (amended): for `min ≤ max` and `factor ≥ 1`, the growth law
`current' = min(current * factor, max)` started at `min` stays within
`[min, max]`, is monotonically non-decreasing, and — when additionally
`min ≥ 1` and `factor > 1` — reaches `max` in finitely many updates;
`dynamic_batch_size` computes the same formula
`min(current * growth_factor, default_batch_size)`. -/
theorem C4_batch_size_growth (minB maxB f : ℕ) (hmm : minB ≤ maxB) (hf : 1 ≤ f) :
    (∀ k, minB ≤ ((BatchSize.make maxB minB f).iter k).current_batch_size ∧
        ((BatchSize.make maxB minB f).iter k).current_batch_size ≤ maxB) ∧
    (∀ k, ((BatchSize.make maxB minB f).iter k).current_batch_size ≤
        ((BatchSize.make maxB minB f).iter (k + 1)).current_batch_size) ∧
    (1 ≤ minB → 2 ≤ f →
      ∃ k, ((BatchSize.make maxB minB f).iter k).current_batch_size = maxB) ∧
    (∀ current growth, dynamic_batch_size maxB current growth = min (current * growth) maxB) ∧
    (∀ current, dynamic_batch_size maxB current f =
        (BatchSize.update ⟨maxB, minB, f, current⟩).current_batch_size) := by
  have hform := BatchSize.iter_current (BatchSize.make maxB minB f) hmm hf
  refine ⟨?_, ?_, ?_, fun current growth => rfl, fun current => rfl⟩
  · intro k
    rw [hform k]
    constructor
    · refine le_min ?_ hmm
      calc minB = minB * 1 := (Nat.mul_one _).symm
        _ ≤ minB * f ^ k := Nat.mul_le_mul_left _ (Nat.one_le_pow _ _ (by omega))
    · exact Nat.min_le_right _ _
  · intro k
    rw [hform k, hform (k + 1)]
    exact min_le_min
      (Nat.mul_le_mul_left _ (Nat.pow_le_pow_right (show 0 < f by omega) (Nat.le_succ k)))
      le_rfl
  · intro hmin hf2
    refine ⟨maxB, ?_⟩
    rw [hform maxB]
    have h2 : maxB < 2 ^ maxB := Nat.lt_two_pow maxB
    have hpow : 2 ^ maxB ≤ f ^ maxB := Nat.pow_le_pow_left hf2 _
    have : maxB ≤ minB * f ^ maxB := by
      calc maxB ≤ f ^ maxB := le_trans (le_of_lt h2) hpow
        _ = 1 * f ^ maxB := (Nat.one_mul _).symm
        _ ≤ minB * f ^ maxB := Nat.mul_le_mul_right _ hmin
    exact Nat.min_eq_right this

/-- Witness for C4 at the spec's example `min = 4`, `max = 64`,
`factor = 2`, after three updates. -/
theorem C4_batch_size_growth_witness :
    4 ≤ ((BatchSize.make 64 4 2).iter 3).current_batch_size ∧
    ((BatchSize.make 64 4 2).iter 3).current_batch_size ≤ 64 :=
  (C4_batch_size_growth 4 64 2 (by decide) (by decide)).1 3

/-- C8: every batch emitted by `_generate_vllm` — streaming flushes and
the final batch alike — has a `choices` list of length exactly
`n_responses`, for any inputs; and whenever a flush has just reset the
within-batch counter to zero, the working batch is exactly `n_responses`
fresh empty entries. -/
theorem C8_choices_width (E : EngineDefaults) (n : ℕ) (bs gf mb : Option ℕ)
    (stream : Bool) (snaps : List RequestOutput) :
    (∀ b ∈ generate_vllm E n bs stream gf mb snaps, b.choices.length = n) ∧
    (∀ s o, (processOutput true n s o).batchCount = 0 →
      (processOutput true n s o).choices = List.replicate n ⟨[]⟩) := by
  constructor
  · intro b hb
    unfold generate_vllm at hb
    set s0 : GenState :=
      { n_input_tokens := 0
        is_first_output := true
        last_output_texts := List.replicate n []
        total := 0
        batchCount := 0
        choices := List.replicate n ⟨[]⟩
        bs := BatchSize.make (pyOrNat bs E.default_batch_size)
          (pyOrNat mb E.min_batch_size) (pyOrNat gf E.batch_size_growth_factor)
        emitted := [] } with hs0
    have hinv : (snaps.foldl (processSnapshot stream n) s0).choices.length = n ∧
        ∀ b ∈ (snaps.foldl (processSnapshot stream n) s0).emitted, b.choices.length = n := by
      refine foldl_invariant _ _
        (fun a r ha => processSnapshot_width stream n a r ha) snaps s0 ⟨by simp, by simp⟩
    obtain ⟨hc, he⟩ := hinv
    set s1 := snaps.foldl (processSnapshot stream n) s0 with hs1
    dsimp only at hb
    cases stream with
    | true =>
      simp only [if_true] at hb
      split at hb
      · rcases List.mem_append.mp hb with hb | hb
        · exact he b hb
        · simp only [List.mem_singleton] at hb
          subst hb
          exact hc
      · exact he b hb
    | false =>
      simp only [Bool.false_eq_true, if_false] at hb
      split at hb
      · rcases List.mem_append.mp hb with hb | hb
        · exact he b hb
        · simp only [List.mem_singleton] at hb
          subst hb
          simpa [enumFoldSet_length] using hc
      · exact he b hb
  · intro s o h
    unfold processOutput at h ⊢
    simp only [if_true] at h ⊢
    split at h
    · split
      · rfl
      · omega
    · simp at h

/-- C2 counterexample: a NON-streaming generation whose engine stream
produces zero output tokens (here: no snapshots at all) still yields one
final batch — with one `[""]` entry per candidate and `usage.output = 0` —
so the claim's "no batch at all is produced" fails for non-streaming
generations. -/
theorem C2_counterexample :
    generate_vllm ⟨50, 2, 1⟩ 1 none false none none [] =
      [{ choices := [⟨[[]]⟩], usage := some ⟨0, 0⟩ }] ∧
    generate_vllm ⟨50, 2, 1⟩ 1 none false none none [] ≠ [] := by
  exact ⟨rfl, by decide⟩

/-- C2 (amended): a **streaming** generation whose engine output stream
produces zero output tokens across all candidates yields an empty batch
sequence; a **non-streaming** generation always yields exactly one final
batch, even when zero output tokens were produced. -/
theorem C2_zero_output_generation (E : EngineDefaults) (n : ℕ) (bs gf mb : Option ℕ)
    (snaps : List RequestOutput) (hzero : ∀ r ∈ snaps, r.outputs = []) :
    generate_vllm E n bs true gf mb snaps = [] ∧
    (generate_vllm E n bs false gf mb snaps).length = 1 := by
  have key : ∀ (stream : Bool) (l : List RequestOutput) (s : GenState),
      (∀ r ∈ l, r.outputs = []) → s.emitted = [] → s.batchCount = 0 →
      (l.foldl (processSnapshot stream n) s).emitted = [] ∧
        (l.foldl (processSnapshot stream n) s).batchCount = 0 := by
    intro stream l
    induction l with
    | nil => intro s _ he hb; exact ⟨he, hb⟩
    | cons r l ih =>
      intro s hall he hb
      have hr : r.outputs = [] := hall r (List.mem_cons_self r l)
      have hstep : processSnapshot stream n s r =
          (if s.is_first_output then
            { s with n_input_tokens := r.prompt_token_ids.length, is_first_output := false }
          else s) := by
        unfold processSnapshot
        rw [hr]
        rfl
      rw [List.foldl_cons, hstep]
      split <;> exact ih _ (fun x hx => hall x (List.mem_cons_of_mem r hx)) he hb
  constructor
  · unfold generate_vllm
    obtain ⟨he, hb⟩ := key true snaps
      { n_input_tokens := 0
        is_first_output := true
        last_output_texts := List.replicate n []
        total := 0
        batchCount := 0
        choices := List.replicate n ⟨[]⟩
        bs := BatchSize.make (pyOrNat bs E.default_batch_size)
          (pyOrNat mb E.min_batch_size) (pyOrNat gf E.batch_size_growth_factor)
        emitted := [] } hzero rfl rfl
    simp only [if_true]
    rw [if_neg (by omega)]
    exact he
  · unfold generate_vllm
    obtain ⟨he, hb⟩ := key false snaps
      { n_input_tokens := 0
        is_first_output := true
        last_output_texts := List.replicate n []
        total := 0
        batchCount := 0
        choices := List.replicate n ⟨[]⟩
        bs := BatchSize.make (pyOrNat bs E.default_batch_size)
          (pyOrNat mb E.min_batch_size) (pyOrNat gf E.batch_size_growth_factor)
        emitted := [] } hzero rfl rfl
    simp only [Bool.false_eq_true, if_false]
    rw [if_pos (by omega)]
    simp [he]

/-- Witness for C2 at one snapshot with no candidate outputs. -/
theorem C2_zero_output_generation_witness :
    generate_vllm ⟨50, 2, 1⟩ 1 none true none none [⟨[5], []⟩] = [] :=
  (C2_zero_output_generation ⟨50, 2, 1⟩ 1 none none none [⟨[5], []⟩] (by decide)).1

/-- C1: for a streaming generation in which each candidate's snapshot
text grows by appending (append-monotonic texts, all candidate indices
in range), the fragments emitted for candidate `i` across all streaming
batches of `_generate_vllm`, concatenated in emission order, equal that
candidate's final accumulated text — no character is sent twice, none is
skipped.  Each fragment is the string-length-based suffix of the new
text beyond the last-seen text (that is how `processOutput` computes
it). -/
theorem C1_streaming_fragment_concatenation (E : EngineDefaults) (n : ℕ)
    (bs gf mb : Option ℕ) (snaps : List RequestOutput) (i : ℕ)
    (hi : i < n)
    (hall : ((snaps.map (fun r => r.outputs)).flatten).all
      (fun o => decide (o.index < n)) = true)
    (hmono : appendMonoB (List.replicate n [])
      ((snaps.map (fun r => r.outputs)).flatten) = true) :
    (candidateFragments (generate_vllm E n bs true gf mb snaps) i).flatten =
      finalCandidateText snaps i := by
  have h0 : StreamInv n
      { n_input_tokens := 0
        is_first_output := true
        last_output_texts := List.replicate n []
        total := 0
        batchCount := 0
        choices := List.replicate n ⟨[]⟩
        bs := BatchSize.make (pyOrNat bs E.default_batch_size)
          (pyOrNat mb E.min_batch_size) (pyOrNat gf E.batch_size_growth_factor)
        emitted := [] } := by
    refine ⟨by simp, by simp, ?_, ?_⟩
    · intro j hj
      simp [candidateFragments, pendTokens, getD_replicate_tokens,
        getD_replicate_of_lt _ _ _ _ hj]
    · intro _ j
      simp [pendTokens, getD_replicate_tokens]
  obtain ⟨⟨hl1, hc1, hacc1, hemp1⟩, hlast1⟩ :=
    foldl_processSnapshot_stream n snaps _ h0 hmono hall
  simp only [pendTokens] at hacc1 hemp1
  have hfinal : (snaps.foldl (processSnapshot true n)
      { n_input_tokens := 0
        is_first_output := true
        last_output_texts := List.replicate n []
        total := 0
        batchCount := 0
        choices := List.replicate n ⟨[]⟩
        bs := BatchSize.make (pyOrNat bs E.default_batch_size)
          (pyOrNat mb E.min_batch_size) (pyOrNat gf E.batch_size_growth_factor)
        emitted := [] }).last_output_texts.getD i [] = finalCandidateText snaps i := by
    rw [hlast1, setFold_getD i _ _ (show i < (List.replicate n ([] : Text)).length by
      simpa using hi)]
    have hbase : (List.replicate n ([] : Text)).getD i [] = [] :=
      getD_replicate_of_lt _ _ _ _ hi
    rw [hbase]
    rfl
  unfold generate_vllm
  simp only [if_true]
  split
  · rw [candidateFragments_append]
    dsimp only
    rw [hacc1 i hi]
    exact hfinal
  · rename_i hcond
    have hthis := hacc1 i hi
    rw [hemp1 (by omega) i, List.append_nil] at hthis
    rw [hthis]
    exact hfinal

/-- Witness for C1: one candidate streamed over two snapshots
(`"Hel"`, then `"Hello"`); the emitted fragments concatenate to
`"Hello"`, the final accumulated text. -/
theorem C1_streaming_fragment_concatenation_witness :
    (candidateFragments (generate_vllm ⟨2, 2, 1⟩ 1 none true none none
        [⟨[1], [⟨0, ['H', 'e', 'l']⟩]⟩,
         ⟨[1], [⟨0, ['H', 'e', 'l', 'l', 'o']⟩]⟩]) 0).flatten =
      finalCandidateText
        [⟨[1], [⟨0, ['H', 'e', 'l']⟩]⟩,
         ⟨[1], [⟨0, ['H', 'e', 'l', 'l', 'o']⟩]⟩] 0 ∧
    finalCandidateText
        [⟨[1], [⟨0, ['H', 'e', 'l']⟩]⟩,
         ⟨[1], [⟨0, ['H', 'e', 'l', 'l', 'o']⟩]⟩] 0 =
      ['H', 'e', 'l', 'l', 'o'] :=
  ⟨C1_streaming_fragment_concatenation ⟨2, 2, 1⟩ 1 none none none
      [⟨[1], [⟨0, ['H', 'e', 'l']⟩]⟩,
       ⟨[1], [⟨0, ['H', 'e', 'l', 'l', 'o']⟩]⟩] 0
      (by decide) (by decide) (by decide),
    by decide⟩

end Mixtral
